import Mathlib

/-!
Verification of the astro-coffee server core (astrocoffee/coffeeserver.py and
astrocoffee/handlers/coffee_workers.py) against its design specification.

The Python code is shallowly embedded: straight-line phases of main become
event traces, the port-retry loop becomes a fuel-indexed recursion, worker
lifecycle hooks become functions on an explicit worker-process state, and
opaque collaborators (the database backend, the author query) become
parameters.  Components that the specification describes but whose
implementation lives outside the provided sources (the vendored process
pool, the external periodic-callback timer, the arxiv ingest module) are
modelled from the specification and marked as such in their doc comments.
-/

/-- A database connection handle as seen by the worker lifecycle hooks.
The close() method of the real connection may raise; this is embedded as an
Except value recording whether closing succeeds or raises an error. -/
structure Conn where
  closeResult : Except String Unit
deriving Repr

/-- A database engine handle; its dispose() method may raise, embedded the
same way as Conn.closeResult. -/
structure Engine where
  disposeResult : Except String Unit
deriving Repr

/-- Process-local worker state: coffeeserver.setup_worker stores metadata,
connection and engine as attributes of the current process object; an absent
attribute is embedded as none (getattr with default None). -/
structure WorkerProc where
  metadata : Option Unit := none
  connection : Option Conn := none
  engine : Option Engine := none
deriving Repr

/-- POSIX-style signal names relevant to the server. -/
inductive SigName
  | SIGINT
  | SIGTERM
  | otherSignal
deriving DecidableEq, Repr

/-- A signal disposition as installed with signal.signal. -/
inductive Disposition
  | defaultAction
  | ignoreSignal
  | handlerFn (name : String)
deriving DecidableEq, Repr

/-- signal.SIG_IGN. -/
def SIG_IGN : Disposition := Disposition.ignoreSignal

/-- coffeeserver.setup_worker (lines 88 to 110): sets the disposition of
SIGINT (and only SIGINT) to SIG_IGN, then obtains (engine, connection,
metadata) from database.get_astrocoffee_db(database_url) (the database
module is opaque to the claims, so the factory is a parameter) and stores
the three handles on the current process.  Returns the updated signal
dispositions together with the worker-process state. -/
def setup_worker (get_astrocoffee_db : String → Engine × Conn × Unit)
    (database_url : String) (dispositions : SigName → Disposition) :
    (SigName → Disposition) × WorkerProc :=
  let db := get_astrocoffee_db database_url
  (fun s => if s = SigName.SIGINT then SIG_IGN else dispositions s,
   { engine := some db.1, connection := some db.2.1, metadata := some db.2.2 })

/-- The observable cleanup actions of coffeeserver.close_database, in the
order the source performs them. -/
inductive CleanupAction
  | releaseMetadata
  | closeConnection
  | disposeEngine
  | logCompletion
deriving DecidableEq, Repr

/-- First block of coffeeserver.close_database (lines 121 to 122): if the
metadata attribute is present it is deleted; nothing here can raise. -/
def release_metadata_step (p : WorkerProc) : WorkerProc × List CleanupAction :=
  match p.metadata with
  | some _ => ({ p with metadata := none }, [CleanupAction.releaseMetadata])
  | none => (p, [])

/-- Second block of coffeeserver.close_database (lines 124 to 126): if the
connection attribute is present, connection.close() is called (which may
raise) and the attribute is deleted. -/
def close_connection_step (p : WorkerProc) : Except String (WorkerProc × List CleanupAction) :=
  match p.connection with
  | some c =>
    match c.closeResult with
    | Except.ok _ => Except.ok ({ p with connection := none }, [CleanupAction.closeConnection])
    | Except.error e => Except.error e
  | none => Except.ok (p, [])

/-- Third block of coffeeserver.close_database (lines 128 to 130): if the
engine attribute is present, engine.dispose() is called (which may raise)
and the attribute is deleted. -/
def dispose_engine_step (p : WorkerProc) : Except String (WorkerProc × List CleanupAction) :=
  match p.engine with
  | some eng =>
    match eng.disposeResult with
    | Except.ok _ => Except.ok ({ p with engine := none }, [CleanupAction.disposeEngine])
    | Except.error e => Except.error e
  | none => Except.ok (p, [])

/-- coffeeserver.close_database (lines 113 to 133), composed from its three
blocks followed by the completion print.  The Python function installs no
exception handler, so an error raised by close() or dispose() aborts the
remaining steps and propagates to the caller; that is embedded by the
Except result.  On success the function returns the final worker state and
the trace of cleanup actions performed, ending with the completion log. -/
def close_database (p : WorkerProc) : Except String (WorkerProc × List CleanupAction) :=
  let s1 := release_metadata_step p
  match close_connection_step s1.1 with
  | Except.error e => Except.error e
  | Except.ok s2 =>
    match dispose_engine_step s2.1 with
    | Except.error e => Except.error e
    | Except.ok s3 =>
      Except.ok (s3.1, s1.2 ++ s2.2 ++ s3.2 ++ [CleanupAction.logCompletion])

/-- maxtries in coffeeserver.main (line 387). -/
def maxtries : Nat := 10

/-- The port-binding loop of coffeeserver.main (lines 384 to 401), translated
faithfully: the loop state is (serverport, thistry); portok is encoded by
returning.  The loop body never increments thistry, exactly as in the
source.  busy tells whether listening on a given port raises socket.error.
fuel bounds how many iterations are evaluated: none means the loop is still
running after fuel iterations; some (some p) means the server bound port p;
some none means the loop exited with portok false, after which main logs an
error and calls sys.exit(1). -/
def bind_loop (busy : Nat → Bool) : Nat → Nat → Nat → Option (Option Nat)
  | 0, _, _ => none
  | fuel + 1, serverport, thistry =>
    if thistry < maxtries then
      if busy serverport then
        bind_loop busy fuel (serverport + 1) thistry
      else
        some (some serverport)
    else
      some none

/-- Observable events of the straight-line phases of coffeeserver.main. -/
inductive ServerEvent
  | configLoaded
  | configGenerated
  | errorLogged
  | exitedFatal (code : Nat)
  | executorConstructed
  | portBound (port : Nat)
  | ingestInvoked
  | timerArmed
  | loopStarted
  | loopStopped
  | poolShutdown
  | sleptSeconds (n : Nat)
  | processExited
deriving DecidableEq, Repr

/-- The configuration phase of coffeeserver.main (lines 162 to 189), as a
function of whether the first-run marker file and the config file exist.
Returns the emitted events and whether main continues past this phase
(false means sys.exit(1) was reached). -/
def config_phase (firstrun_exists conf_exists : Bool) : List ServerEvent × Bool :=
  if firstrun_exists && conf_exists then
    ([ServerEvent.configLoaded], true)
  else if firstrun_exists && !conf_exists then
    ([ServerEvent.errorLogged, ServerEvent.exitedFatal 1], false)
  else if !firstrun_exists then
    ([ServerEvent.configGenerated, ServerEvent.configLoaded], true)
  else
    ([ServerEvent.errorLogged, ServerEvent.exitedFatal 1], false)

/-- The startup sequence of coffeeserver.main up to port binding: the
configuration phase (lines 162 to 189), then construction of the
ProcessPoolExecutor (line 213), then the port-binding loop (lines 384 to
401).  none propagates a port-binding loop that is still running after fuel
iterations. -/
def main_startup (firstrun_exists conf_exists : Bool) (busy : Nat → Bool)
    (fuel server_port : Nat) : Option (List ServerEvent) :=
  let cp := config_phase firstrun_exists conf_exists
  if cp.2 then
    match bind_loop busy fuel server_port 0 with
    | none => none
    | some none =>
      some (cp.1 ++ [ServerEvent.executorConstructed, ServerEvent.errorLogged,
        ServerEvent.exitedFatal 1])
    | some (some port) =>
      some (cp.1 ++ [ServerEvent.executorConstructed, ServerEvent.portBound port])
  else
    some cp.1

/-- The recurring timer as configured by coffeeserver.main (lines 428 to
433): callback period 86400000.0 milliseconds and jitter fraction 0.1. -/
structure PeriodicCallback where
  callback_time_ms : ℚ
  jitter : ℚ
  started : Bool
deriving Repr

/-- The periodic arxiv updater constructed in coffeeserver.main (lines 428
to 432), before start() is called. -/
def periodic_arxiv_updater : PeriodicCallback :=
  { callback_time_ms := 86400000, jitter := 1 / 10, started := false }

/-- The jitter fraction the code passes to the periodic callback. -/
def arxiv_update_jitter : ℚ := periodic_arxiv_updater.jitter

/-- The base period (milliseconds) the code passes to the periodic
callback. -/
def arxiv_update_period_ms : ℚ := periodic_arxiv_updater.callback_time_ms

/-- Modelled from the spec: the timer implementation (tornado's
PeriodicCallback) is an external library, not part of this repository.
Spec section 3 (ScheduleTimer): while armed, the timer fires at
base_period * (1 + jitter_delta) with jitter_delta drawn from
[-jitter, +jitter] on each firing.  This gives one firing interval for a
given draw. -/
def timer_interval (period jitter_delta : ℚ) : ℚ := period * (1 + jitter_delta)

/-- The event-loop phase of coffeeserver.main (lines 414 to 436): one
synchronous call of periodic_arxiv_update_fn (line 424), then
periodic_arxiv_updater.start() (line 433), then loop.start() (line 436). -/
def main_eventloop_phase : List ServerEvent :=
  [ServerEvent.ingestInvoked, ServerEvent.timerArmed, ServerEvent.loopStarted]

/-- Modelled from the spec: the worker pool implementation
(astrocoffee.vendored.futures37.process.ProcessPoolExecutor) is not among
the provided sources.  Spec section 4.1: the pool holds a fixed set of
workers; shutdown() stops accepting new submissions and signals every
worker to run its finalizer exactly once.  finalizerRuns records, per
worker, how often that worker's finalizer has run. -/
structure WorkerPool where
  accepting : Bool
  finalizerRuns : List Nat
deriving Repr

/-- Modelled from the spec: WorkerPool.shutdown stops accepting submissions
and runs the finalizer of every worker that has not run it yet, so that
after shutdown each worker's finalizer has run exactly once. -/
def WorkerPool.shutdown (p : WorkerPool) : WorkerPool :=
  { accepting := false,
    finalizerRuns := p.finalizerRuns.map (fun n => if n = 0 then 1 else n) }

/-- coffeeserver.recv_sigint (lines 29 to 34): the registered handler
ignores its arguments and raises KeyboardInterrupt, embedded as an error
result. -/
def recv_sigint (signum : SigName) (stack : Unit) : Except String Unit :=
  Except.error "KeyboardInterrupt"

/-- A registered signal handler slot. -/
inductive SigHandler
  | defaultHandling
  | recvSigintHandler
deriving DecidableEq, Repr

/-- signal.signal: point update of the handler table. -/
def register_signal (table : SigName → SigHandler) (s : SigName) (h : SigHandler) :
    SigName → SigHandler :=
  fun t => if t = s then h else table t

/-- The handler registration in coffeeserver.main (lines 410 to 411):
recv_sigint is installed for SIGINT and then for SIGTERM. -/
def main_register_handlers (table : SigName → SigHandler) : SigName → SigHandler :=
  register_signal
    (register_signal table SigName.SIGINT SigHandler.recvSigintHandler)
    SigName.SIGTERM SigHandler.recvSigintHandler

/-- The shutdown path of coffeeserver.main (lines 438 to 445): on
KeyboardInterrupt the supervisor logs, calls loop.stop(), then (outside the
try block) EXECUTOR.shutdown(), then time.sleep(2), then main returns.
The pool shutdown semantics are modelled from the spec (WorkerPool). -/
def supervisor_on_interrupt (pool : WorkerPool) : List ServerEvent × WorkerPool :=
  ([ServerEvent.loopStopped, ServerEvent.poolShutdown, ServerEvent.sleptSeconds 2,
    ServerEvent.processExited],
   pool.shutdown)

/-- Modelled from the spec: the ingest implementation
(astrocoffee.arxivupdate.periodic_arxiv_update) is not among the provided
sources.  Spec section 4.4: the Ingest Job fetches the current upstream
entries, diffs them against the already-stored entries by their identifying
key, and persists only the new ones; re-ingesting stored entries is a
no-op, not a duplicate-insert error.  The store is the list of stored
entry keys in insertion order. -/
def ingest_job : List String → List String → List String
  | [], store => store
  | entry :: rest, store =>
    ingest_job rest (if entry ∈ store then store else store ++ [entry])

/-- coffee_workers.get_local_authors (lines 34 to 49): reads the
process-local connection and metadata, calls the backend author query
(opaque here, passed as a parameter) to obtain the local-author mapping,
and returns the list of the mapping's keys in iteration order paired with
the mapping itself.  The mapping is embedded as an association list, whose
order is the dict iteration order. -/
def get_local_authors (authors_backend : Conn × Unit → Bool → List (String × String))
    (conn : Conn) (meta : Unit) (include_affiliations : Bool) :
    List String × List (String × String) :=
  let local_authors := authors_backend (conn, meta) include_affiliations
  let author_list := local_authors.map Prod.fst
  (author_list, local_authors)

/-!
## Theorems
-/

/-- C1 (code_bug evaluation): the port-binding retry loop of
coffeeserver.main never gives up.  Because the source never increments
thistry, the loop condition thistry < maxtries stays true forever: with
every port busy the loop is still running after any number of iterations
(first conjunct), and with ports 0 through 49 busy it eventually binds port
50, far outside the promised window of ten candidate ports and without ever
reaching the sys.exit(1) branch (second conjunct). -/
theorem port_retry_never_gives_up :
    (∀ fuel serverport, bind_loop (fun _ => true) fuel serverport 0 = none) ∧
    bind_loop (fun p => decide (p < 50)) 60 0 0 = some (some 50) := by
  constructor
  · intro fuel
    induction fuel with
    | zero => intro sp; rfl
    | succ n ih =>
      intro sp
      show bind_loop (fun _ => true) (n + 1) sp 0 = none
      rw [bind_loop]
      simpa [maxtries] using ih (sp + 1)
  · rfl

/-- C3 (counterexample): the claim that setup_worker sets the disposition
of interrupt and terminate signals to ignore fails for SIGTERM: starting
from default dispositions, after setup_worker the SIGTERM disposition is
still the default action, not SIG_IGN. -/
theorem setup_worker_sigterm_cex :
    (setup_worker
        (fun _ => ({ disposeResult := Except.ok () }, { closeResult := Except.ok () }, ()))
        "postgres" (fun _ => Disposition.defaultAction)).1 SigName.SIGTERM =
      Disposition.defaultAction ∧
    decide ((setup_worker
        (fun _ => ({ disposeResult := Except.ok () }, { closeResult := Except.ok () }, ()))
        "postgres" (fun _ => Disposition.defaultAction)).1 SigName.SIGTERM = SIG_IGN) = false := by
  constructor
  · rfl
  · rfl

/-- C3 (amended): after setup_worker has run in a worker process, the
disposition of SIGINT is SIG_IGN, so an interrupt aimed at the main process
is ignored by the worker; every other signal's disposition, in particular
SIGTERM's, is left exactly as it was. -/
theorem setup_worker_signal_isolation
    (get_astrocoffee_db : String → Engine × Conn × Unit)
    (database_url : String) (dispositions : SigName → Disposition) :
    (setup_worker get_astrocoffee_db database_url dispositions).1 SigName.SIGINT = SIG_IGN ∧
    ∀ s, s ≠ SigName.SIGINT →
      (setup_worker get_astrocoffee_db database_url dispositions).1 s = dispositions s := by
  constructor
  · rfl
  · intro s hs
    simp [setup_worker, hs]

/-- C3 (witness): the amended theorem applied at concrete inputs: SIGTERM
keeps the default-action disposition it had before setup_worker ran. -/
theorem setup_worker_signal_isolation_witness :
    (setup_worker
        (fun _ => ({ disposeResult := Except.ok () }, { closeResult := Except.ok () }, ()))
        "sqlite" (fun _ => Disposition.defaultAction)).1 SigName.SIGTERM =
      Disposition.defaultAction :=
  (setup_worker_signal_isolation
      (fun _ => ({ disposeResult := Except.ok () }, { closeResult := Except.ok () }, ()))
      "sqlite" (fun _ => Disposition.defaultAction)).2 SigName.SIGTERM (by decide)

/-- C4: in the event-loop phase of coffeeserver.main, the ingest job is
invoked exactly once, that invocation precedes arming the recurring timer,
and the timer is armed before the event loop starts running. -/
theorem startup_firing_order :
    main_eventloop_phase.count ServerEvent.ingestInvoked = 1 ∧
    main_eventloop_phase.indexOf ServerEvent.ingestInvoked <
      main_eventloop_phase.indexOf ServerEvent.timerArmed ∧
    main_eventloop_phase.indexOf ServerEvent.timerArmed <
      main_eventloop_phase.indexOf ServerEvent.loopStarted := by
  decide

/-- C8: when the first-run marker file exists but the config file does not,
coffeeserver.main logs an error and exits with status 1 during the
configuration phase; in particular the emitted startup trace contains no
worker-pool construction and no port binding, whatever the port landscape
looks like. -/
theorem fatal_config_exit (busy : Nat → Bool) (fuel server_port : Nat) :
    main_startup true false busy fuel server_port =
      some [ServerEvent.errorLogged, ServerEvent.exitedFatal 1] ∧
    ∀ evs, main_startup true false busy fuel server_port = some evs →
      evs.count ServerEvent.executorConstructed = 0 ∧
      ∀ q, evs.count (ServerEvent.portBound q) = 0 := by
  refine ⟨rfl, ?_⟩
  intro evs h
  have hevs : evs = [ServerEvent.errorLogged, ServerEvent.exitedFatal 1] := by
    have h0 : main_startup true false busy fuel server_port =
        some [ServerEvent.errorLogged, ServerEvent.exitedFatal 1] := rfl
    rw [h0] at h
    exact (Option.some.injEq _ _).mp h.symm
  subst hevs
  refine ⟨rfl, ?_⟩
  intro q
  simp [List.count_eq_zero]

/-- C8 (witness): the theorem applied at a concrete port landscape; the
fatal-exit trace indeed contains no worker-pool construction event. -/
theorem fatal_config_exit_witness :
    ([ServerEvent.errorLogged, ServerEvent.exitedFatal 1]).count
      ServerEvent.executorConstructed = 0 :=
  ((fatal_config_exit (fun _ => false) 1 8888).2
    [ServerEvent.errorLogged, ServerEvent.exitedFatal 1] rfl).1

/-- C6: the code configures the periodic arxiv updater with jitter fraction
0.1; and for any nonnegative base period and any jitter draw whose
magnitude is at most the jitter fraction j, the resulting firing interval
period * (1 + delta) lies within [period * (1 - j), period * (1 + j)]. -/
theorem scheduler_jitter_bounds (period j delta : ℚ)
    (hp : 0 ≤ period) (hd : |delta| ≤ j) :
    arxiv_update_jitter = 1 / 10 ∧
    period * (1 - j) ≤ timer_interval period delta ∧
    timer_interval period delta ≤ period * (1 + j) := by
  have h1 : -j ≤ delta := (abs_le.mp hd).1
  have h2 : delta ≤ j := (abs_le.mp hd).2
  refine ⟨rfl, ?_, ?_⟩
  · unfold timer_interval
    nlinarith [mul_nonneg hp (by linarith : (0 : ℚ) ≤ delta + j)]
  · unfold timer_interval
    nlinarith [mul_nonneg hp (by linarith : (0 : ℚ) ≤ j - delta)]

/-- C6 (witness): the bounds at the configured period of 86400000 ms,
jitter fraction 1/10, and a concrete draw of 1/20. -/
theorem scheduler_jitter_bounds_witness :
    arxiv_update_jitter = 1 / 10 ∧
    arxiv_update_period_ms * (1 - 1 / 10) ≤ timer_interval arxiv_update_period_ms (1 / 20) ∧
    timer_interval arxiv_update_period_ms (1 / 20) ≤ arxiv_update_period_ms * (1 + 1 / 10) :=
  scheduler_jitter_bounds arxiv_update_period_ms (1 / 10) (1 / 20)
    (by norm_num [arxiv_update_period_ms, periodic_arxiv_updater])
    (by rw [abs_of_nonneg (by norm_num : (0 : ℚ) ≤ 1 / 20)]; norm_num)

/-- C5: both SIGINT and SIGTERM are registered to the same recv_sigint
handler, which converts either signal into the same KeyboardInterrupt
shutdown path; on that path the supervisor stops the event loop, shuts the
worker pool down, sleeps for the fixed 2-second grace period and exits, in
that order; and after the pool shutdown no further submissions are accepted
and every worker whose finalizer had not run before has now run it exactly
once. -/
theorem shutdown_sequence (table : SigName → SigHandler) (pool : WorkerPool)
    (hfresh : ∀ n ∈ pool.finalizerRuns, n = 0) :
    main_register_handlers table SigName.SIGINT = SigHandler.recvSigintHandler ∧
    main_register_handlers table SigName.SIGTERM = SigHandler.recvSigintHandler ∧
    recv_sigint SigName.SIGINT () = recv_sigint SigName.SIGTERM () ∧
    (supervisor_on_interrupt pool).1 =
      [ServerEvent.loopStopped, ServerEvent.poolShutdown, ServerEvent.sleptSeconds 2,
        ServerEvent.processExited] ∧
    (supervisor_on_interrupt pool).2.accepting = false ∧
    ∀ n ∈ (supervisor_on_interrupt pool).2.finalizerRuns, n = 1 := by
  refine ⟨?_, rfl, rfl, rfl, rfl, ?_⟩
  · simp [main_register_handlers, register_signal]
  · intro n hn
    simp only [supervisor_on_interrupt, WorkerPool.shutdown, List.mem_map] at hn
    obtain ⟨m, hm, rfl⟩ := hn
    rw [hfresh m hm]
    rfl

/-- C5 (witness): the shutdown event order for a concrete two-worker pool
whose finalizers have not yet run. -/
theorem shutdown_sequence_witness :
    (supervisor_on_interrupt { accepting := true, finalizerRuns := [0, 0] }).1 =
      [ServerEvent.loopStopped, ServerEvent.poolShutdown, ServerEvent.sleptSeconds 2,
        ServerEvent.processExited] :=
  (shutdown_sequence (fun _ => SigHandler.defaultHandling)
    { accepting := true, finalizerRuns := [0, 0] } (by decide)).2.2.2.1

/-- C2 (counterexample): close_database installs no exception handler, so
when the stored connection's close() raises, the error escapes
close_database to its caller instead of being logged and swallowed. -/
theorem close_database_raises_cex :
    close_database
      { metadata := some (),
        connection := some { closeResult := Except.error "connection already closed" },
        engine := some { disposeResult := Except.ok () } } =
      Except.error "connection already closed" := rfl

/-- C2 (amended): close_database performs its cleanup steps in the order
release metadata, close connection, dispose engine, log completion — on any
successful run the emitted action trace is a subsequence of that canonical
order ending with the completion log — but it has no error handling: an
error raised while closing the connection propagates to the caller, and so
does an error raised while disposing the engine (when the connection step
did not itself raise first). -/
theorem close_database_order (p : WorkerProc) :
    (∀ q acts, close_database p = Except.ok (q, acts) →
      acts.Sublist [CleanupAction.releaseMetadata, CleanupAction.closeConnection,
        CleanupAction.disposeEngine, CleanupAction.logCompletion] ∧
      CleanupAction.logCompletion ∈ acts) ∧
    (∀ c e, p.connection = some c → c.closeResult = Except.error e →
      close_database p = Except.error e) ∧
    (∀ eng e, p.engine = some eng → eng.disposeResult = Except.error e →
      (∀ c, p.connection = some c → c.closeResult = Except.ok ()) →
      close_database p = Except.error e) := by
  refine ⟨?_, ?_, ?_⟩
  · obtain ⟨m, c, eng⟩ := p
    intro q acts h
    rcases m with _ | m
    all_goals rcases c with _ | ⟨cr⟩
    all_goals try rcases cr with _ | ce
    all_goals rcases eng with _ | ⟨er⟩
    all_goals try rcases er with _ | ee
    all_goals simp_all [close_database, release_metadata_step, close_connection_step,
      dispose_engine_step]
    all_goals obtain ⟨rfl, rfl⟩ := h
    all_goals decide
  · obtain ⟨m, c, eng⟩ := p
    intro c0 e hc he
    simp only at hc
    subst hc
    rcases m with _ | m <;>
      simp [close_database, release_metadata_step, close_connection_step, he]
  · obtain ⟨m, c, engOpt⟩ := p
    intro eng e heng he hok
    simp only at heng
    subst heng
    rcases c with _ | c0
    · rcases m with _ | m <;>
        simp [close_database, release_metadata_step, close_connection_step,
          dispose_engine_step, he]
    · have hc0 : c0.closeResult = Except.ok () := hok c0 rfl
      rcases m with _ | m <;>
        simp [close_database, release_metadata_step, close_connection_step,
          dispose_engine_step, he, hc0]

/-- C2 (witness): the amended theorem applied at a concrete worker state
whose engine dispose raises while the connection closes cleanly; the
dispose error propagates past close_database. -/
theorem close_database_order_witness :
    close_database
      { metadata := some (),
        connection := some { closeResult := Except.ok () },
        engine := some { disposeResult := Except.error "dispose failed" } } =
      Except.error "dispose failed" :=
  (close_database_order
      { metadata := some (),
        connection := some { closeResult := Except.ok () },
        engine := some { disposeResult := Except.error "dispose failed" } }).2.2
    { disposeResult := Except.error "dispose failed" } "dispose failed" rfl rfl
    (fun c hc => (Option.some.inj hc) ▸ rfl)

/-- C9: close_database only acts on the handles actually present: on a
worker whose initializer never ran (all three attributes absent) it skips
every cleanup action and still completes with just the log line; on any
successful run, each cleanup action appears in the trace exactly when the
corresponding handle was present; and a successful run deletes all three
attributes, so a second consecutive call performs no cleanup action at all
(only the completion log). -/
theorem close_database_tolerant_idempotent (p : WorkerProc) :
    close_database ({} : WorkerProc) =
      Except.ok (({} : WorkerProc), [CleanupAction.logCompletion]) ∧
    ∀ q acts, close_database p = Except.ok (q, acts) →
      (CleanupAction.releaseMetadata ∈ acts ↔ p.metadata.isSome = true) ∧
      (CleanupAction.closeConnection ∈ acts ↔ p.connection.isSome = true) ∧
      (CleanupAction.disposeEngine ∈ acts ↔ p.engine.isSome = true) ∧
      q.metadata = none ∧ q.connection = none ∧ q.engine = none ∧
      close_database q = Except.ok (q, [CleanupAction.logCompletion]) := by
  refine ⟨rfl, ?_⟩
  obtain ⟨m, c, eng⟩ := p
  intro q acts h
  rcases m with _ | m
  all_goals rcases c with _ | ⟨cr⟩
  all_goals try rcases cr with _ | ce
  all_goals rcases eng with _ | ⟨er⟩
  all_goals try rcases er with _ | ee
  all_goals simp_all [close_database, release_metadata_step, close_connection_step,
    dispose_engine_step]
  all_goals obtain ⟨rfl, rfl⟩ := h
  all_goals refine ⟨?_, ?_, ?_, ?_, ?_, ?_, ?_⟩
  all_goals first | rfl | decide

/-- C9 (witness): after a successful cleanup of a fully initialized worker,
a second call performs no cleanup action and emits only the completion
log. -/
theorem close_database_tolerant_witness :
    close_database { metadata := none, connection := none, engine := none } =
      Except.ok (({ metadata := none, connection := none, engine := none } : WorkerProc),
        [CleanupAction.logCompletion]) :=
  ((close_database_tolerant_idempotent
      { metadata := some (),
        connection := some { closeResult := Except.ok () },
        engine := some { disposeResult := Except.ok () } }).2
    { metadata := none, connection := none, engine := none }
    [CleanupAction.releaseMetadata, CleanupAction.closeConnection,
      CleanupAction.disposeEngine, CleanupAction.logCompletion] rfl).2.2.2.2.2.2

/-- Helper for C7: ingest only ever appends, so stored entries survive an
ingest run. -/
theorem ingest_job_mem_of_mem_store (upstream : List String) (store : List String)
    (a : String) (ha : a ∈ store) : a ∈ ingest_job upstream store := by
  induction upstream generalizing store with
  | nil => exact ha
  | cons entry rest ih =>
    show a ∈ ingest_job rest (if entry ∈ store then store else store ++ [entry])
    by_cases h : entry ∈ store
    · simpa [h] using ih store ha
    · simp only [h, if_neg, ite_false]
      exact ih (store ++ [entry]) (List.mem_append_left _ ha)

/-- Helper for C7: every upstream entry is stored after an ingest run. -/
theorem ingest_job_mem_of_mem_upstream (upstream : List String) (store : List String)
    (a : String) (ha : a ∈ upstream) : a ∈ ingest_job upstream store := by
  induction upstream generalizing store with
  | nil => cases ha
  | cons entry rest ih =>
    show a ∈ ingest_job rest (if entry ∈ store then store else store ++ [entry])
    rcases List.mem_cons.mp ha with rfl | hrest
    · apply ingest_job_mem_of_mem_store
      by_cases h : a ∈ store
      · simp [h]
      · simp [h]
    · exact ih _ hrest

/-- Helper for C7: when every upstream entry is already stored, ingest is a
no-op on the store. -/
theorem ingest_job_fixed (upstream : List String) (store : List String)
    (hall : ∀ a ∈ upstream, a ∈ store) : ingest_job upstream store = store := by
  induction upstream with
  | nil => rfl
  | cons entry rest ih =>
    have he : entry ∈ store := hall entry (List.mem_cons_self entry rest)
    show ingest_job rest (if entry ∈ store then store else store ++ [entry]) = store
    rw [if_pos he]
    exact ih (fun a ha => hall a (List.mem_cons_of_mem entry ha))

/-- C7: running the Ingest Job twice with the same upstream entries and no
new entries in between leaves the store exactly as after the first run; in
particular the entry count is unchanged by the second run, and re-ingesting
already-stored entries is a no-op rather than a duplicate insert. -/
theorem ingest_job_idempotent (upstream store : List String) :
    ingest_job upstream (ingest_job upstream store) = ingest_job upstream store ∧
    (ingest_job upstream (ingest_job upstream store)).length =
      (ingest_job upstream store).length := by
  have h : ingest_job upstream (ingest_job upstream store) = ingest_job upstream store :=
    ingest_job_fixed upstream (ingest_job upstream store)
      (fun a ha => ingest_job_mem_of_mem_upstream upstream store a ha)
  exact ⟨h, by rw [h]⟩

/-- C10: on an initialized worker, get_local_authors returns a pair whose
first component is exactly the list of keys of the second component's
mapping, in that mapping's iteration order; in particular both components
have the same length. -/
theorem get_local_authors_shape
    (authors_backend : Conn × Unit → Bool → List (String × String))
    (conn : Conn) (meta : Unit) (include_affiliations : Bool) :
    (get_local_authors authors_backend conn meta include_affiliations).1 =
      ((get_local_authors authors_backend conn meta include_affiliations).2).map Prod.fst ∧
    (get_local_authors authors_backend conn meta include_affiliations).1.length =
      (get_local_authors authors_backend conn meta include_affiliations).2.length := by
  refine ⟨rfl, ?_⟩
  simp [get_local_authors]
